import Mathlib

/-!
Verification of the unkey Rust client library: a shallow embedding of the
route compiler, the tri-state (undefined / null / value) serialization model,
the success-or-error response envelope and its decoders, and the http service
header handling, together with theorems settling the specification claims.

Strings are modelled as lists of characters (Rust String / &str).  The JSON
data model mirrors serde_json values; the parts of serde that are external
collaborators (text-to-value parsing, the Serialize / Deserialize instances of
payload types T) enter as function parameters, while the serde behaviour that
the repository itself pins down through derive attributes (the Wrapped enum
with a renamed error variant and an untagged ok variant, field skipping for
undefined tri-state fields, the SCREAMING_SNAKE_CASE error codes) is embedded
concretely.
-/

set_option autoImplicit false

namespace Unkey

/-- Strings as character lists. -/
abbrev Str := List Char

/-- Character list of a Lean string literal. -/
def chars (s : String) : Str := s.data

/-- Models Rust str::starts_with: the second argument is the pattern. -/
def strStartsWith : Str → Str → Bool
  | _, [] => true
  | [], _ :: _ => false
  | c :: cs, p :: ps => c == p && strStartsWith cs ps

/-- Models Rust str::contains: some suffix of the string starts with the pattern. -/
def strContains : Str → Str → Bool
  | [], pat => strStartsWith [] pat
  | s@(_ :: rest), pat => strStartsWith s pat || strContains rest pat

/-- Models Rust str::replacen(pat, rep, 1): replace the first (leftmost)
occurrence of the pattern, leaving the string unchanged when the pattern does
not occur. -/
def strReplace1 (pat rep : Str) : Str → Str
  | [] => if strStartsWith [] pat then rep else []
  | c :: rest =>
    if strStartsWith (c :: rest) pat then rep ++ (c :: rest).drop pat.length
    else c :: strReplace1 pat rep rest

/-- JSON values, the model of serde_json::Value.  Numbers are restricted to
naturals, which covers every numeric payload appearing in the claims. -/
inductive Json where
  | null
  | bool (b : Bool)
  | num (n : Nat)
  | str (s : Str)
  | arr (items : List Json)
  | obj (fields : List (Str × Json))

/-- First value bound to a key in a JSON object field list. -/
def jsonLookup : List (Str × Json) → Str → Option Json
  | [], _ => none
  | (k, v) :: rest, key => if k = key then some v else jsonLookup rest key

/-- The error codes of models/http.rs, deserialized from SCREAMING_SNAKE_CASE
strings with a catch-all Unknown variant (the serde other attribute). -/
inductive ErrorCode where
  | Valid
  | NotFound
  | Forbidden
  | BadRequest
  | RateLimited
  | Unauthorized
  | UsageExceeded
  | InternalServerError
  | InvalidKeyType
  | NotUnique
  | Conflict
  | DeleteProtected
  | Expired
  | Disabled
  | TooManyRequests
  | Unknown
  deriving DecidableEq

/-- Deserialization of an ErrorCode from its wire string: the renamed
SCREAMING_SNAKE_CASE names, anything else mapping to Unknown. -/
def errorCodeFromStr (s : Str) : ErrorCode :=
  if s = chars "VALID" then .Valid
  else if s = chars "NOT_FOUND" then .NotFound
  else if s = chars "FORBIDDEN" then .Forbidden
  else if s = chars "BAD_REQUEST" then .BadRequest
  else if s = chars "RATE_LIMITED" then .RateLimited
  else if s = chars "UNAUTHORIZED" then .Unauthorized
  else if s = chars "USAGE_EXCEEDED" then .UsageExceeded
  else if s = chars "INTERNAL_SERVER_ERROR" then .InternalServerError
  else if s = chars "INVALID_KEY_TYPE" then .InvalidKeyType
  else if s = chars "NOT_UNIQUE" then .NotUnique
  else if s = chars "CONFLICT" then .Conflict
  else if s = chars "DELETE_PROTECTED" then .DeleteProtected
  else if s = chars "EXPIRED" then .Expired
  else if s = chars "DISABLED" then .Disabled
  else if s = chars "TOO_MANY_REQUESTS" then .TooManyRequests
  else .Unknown

/-- The HttpError struct of models/http.rs. -/
structure HttpError where
  code : ErrorCode
  message : Str
  deriving DecidableEq

/-- Deserialization of HttpError from a JSON value: a map carrying string
fields code and message. -/
def httpErrorFromJson : Json → Except Str HttpError
  | .obj fields =>
    match jsonLookup fields (chars "code"), jsonLookup fields (chars "message") with
    | some (.str c), some (.str m) => .ok ⟨errorCodeFromStr c, m⟩
    | _, _ => .error (chars "missing field in HttpError")
  | _ => .error (chars "invalid type: expected a map for HttpError")

/-- The Wrapped enum of models/http.rs: a renamed error variant and an
untagged ok variant. -/
inductive Wrapped (T : Type) where
  | err (e : HttpError)
  | ok (value : T)

/-- Conversion From Wrapped for Result in models/http.rs. -/
def Wrapped.toResult {T : Type} : Wrapped T → Except HttpError T
  | .err e => .error e
  | .ok v => .ok v

/-- The externally tagged representation of the error variant of Wrapped: a
single-entry map whose key is the error discriminator. -/
def taggedError : Json → Except Str HttpError
  | .obj [(k, v)] =>
    if k = chars "error" then httpErrorFromJson v
    else .error (chars "unknown variant")
  | _ => .error (chars "expected externally tagged enum")

/-- Deserialization of Wrapped from a JSON value, per the derive attributes on
models/http.rs: the tagged error representation is attempted first and, when
it does not apply, the untagged ok variant decodes the payload type directly
through the supplied deserializer. -/
def wrappedFromJson {T : Type} (tDe : Json → Except Str T) (j : Json) : Except Str (Wrapped T) :=
  match taggedError j with
  | .ok e => .ok (.err e)
  | .error _ => (tDe j).map .ok

/-- Deserialization of the Rust unit type from a JSON value: only null. -/
def unitFromJson : Json → Except Str Unit
  | .null => .ok ()
  | _ => .error (chars "invalid type: expected unit")

/-- A low level http result after reading the body: the body text, or the
transport or body-read error text. -/
abbrev HttpResult := Except Str Str

/-- The parse_response function of lib.rs.  The text-to-JSON step of
serde_json::from_str is the external parse parameter; a transport failure or
any deserialization failure collapses to an Unknown-coded HttpError. -/
def parse_response {T : Type} (parse : Str → Except Str Json)
    (tDe : Json → Except Str T) : HttpResult → Except HttpError T
  | .error e => .error ⟨.Unknown, e⟩
  | .ok text =>
    match (parse text).bind (wrappedFromJson tDe) with
    | .error e => .error ⟨.Unknown, e⟩
    | .ok r => r.toResult

/-- The parse_empty_response function of lib.rs: decode the unit envelope and,
when that fails, fall back on scanning the raw text for the error
discriminator substring. -/
def parse_empty_response (parse : Str → Except Str Json) : HttpResult → Except HttpError Unit
  | .error e => .error ⟨.Unknown, e⟩
  | .ok text =>
    match (parse text).bind (wrappedFromJson unitFromJson) with
    | .ok r => r.toResult
    | .error e =>
      if strContains text (chars "error") then .error ⟨.Unknown, e⟩
      else .ok ()

/-- The wire shape of the tagged error: a single-entry map under the error
discriminator key carrying a code and a message. -/
def errorJson (code msg : Str) : Json :=
  .obj [(chars "error", .obj [(chars "code", .str code), (chars "message", .str msg)])]

/-- The UndefinedOr enum of models/undefined.rs: a value, an explicit null, or
an absent (undefined) field. -/
inductive UndefinedOr (T : Type) where
  | value (v : T)
  | null
  | undefined
  deriving DecidableEq

/-- True when the variant carries a value. -/
def UndefinedOr.is_some {T : Type} : UndefinedOr T → Bool
  | .value _ => true
  | _ => false

/-- True when the variant is the undefined state. -/
def UndefinedOr.is_undefined {T : Type} : UndefinedOr T → Bool
  | .undefined => true
  | _ => false

/-- True when the variant is the null state. -/
def UndefinedOr.is_null {T : Type} : UndefinedOr T → Bool
  | .null => true
  | _ => false

/-- Optional reference to the inner value. -/
def UndefinedOr.inner {T : Type} : UndefinedOr T → Option T
  | .value v => some v
  | _ => none

/-- The Serialize impl for UndefinedOr in models/undefined.rs: null serializes
as the JSON null token, a value serializes through the inner type's own
serializer, and the undefined state fails serialization. -/
def UndefinedOr.serialize {T : Type} (ser : T → Except Str Json) : UndefinedOr T → Except Str Json
  | .null => .ok .null
  | .value v => ser v
  | .undefined => .error (chars "Undefined should never be serialized.")

/-- The From impl for Option in models/undefined.rs: present maps to value,
absent maps to null. -/
def UndefinedOr.fromOption {T : Type} : Option T → UndefinedOr T
  | some v => .value v
  | none => .null

/-- Escaping of one character inside a JSON string literal. -/
def escapeChar (c : Char) : Str :=
  if c = '"' then ['\\', '"']
  else if c = '\\' then ['\\', '\\']
  else [c]

/-- Rendering of a JSON string literal. -/
def renderStr (s : Str) : Str := '"' :: (s.map escapeChar).flatten ++ ['"']

mutual

/-- Compact rendering of a JSON value, the model of serde_json::to_string. -/
def Json.render : Json → Str
  | .null => chars "null"
  | .bool true => chars "true"
  | .bool false => chars "false"
  | .num n => chars (Nat.repr n)
  | .str s => renderStr s
  | .arr items => '[' :: Json.renderItems items ++ [']']
  | .obj fields => '\x7b' :: Json.renderFields fields ++ ['\x7d']

/-- Comma-separated rendering of array items. -/
def Json.renderItems : List Json → Str
  | [] => []
  | [j] => Json.render j
  | j :: rest => Json.render j ++ ',' :: Json.renderItems rest

/-- Comma-separated rendering of object fields. -/
def Json.renderFields : List (Str × Json) → Str
  | [] => []
  | [(k, v)] => renderStr k ++ ':' :: Json.render v
  | (k, v) :: rest => renderStr k ++ ':' :: Json.render v ++ ',' :: Json.renderFields rest

end

/-- Serialization of an unsigned integer field. -/
def natToJson (n : Nat) : Except Str Json := .ok (.num n)

/-- The TestStruct container of the models/undefined.rs tests: four tri-state
u32 fields, each carrying the skip-if-undefined field attribute. -/
structure TestStruct where
  a : UndefinedOr Nat
  b : UndefinedOr Nat
  c : UndefinedOr Nat
  d : UndefinedOr Nat

/-- Struct field serialization under the skip_serializing_if attribute wired
to UndefinedOr.is_undefined: undefined fields are skipped before the field
serializer is ever invoked, every other field serializes through the
UndefinedOr Serialize impl. -/
def serializeFields : List (Str × UndefinedOr Nat) → Except Str (List (Str × Json))
  | [] => .ok []
  | (name, f) :: rest =>
    if f.is_undefined then serializeFields rest
    else do
      let j ← UndefinedOr.serialize natToJson f
      let tail ← serializeFields rest
      .ok ((name, j) :: tail)

/-- JSON value of a TestStruct, fields in declaration order. -/
def TestStruct.toJson (t : TestStruct) : Except Str Json :=
  (serializeFields [(chars "a", t.a), (chars "b", t.b), (chars "c", t.c), (chars "d", t.d)]).map Json.obj

/-- Wire text of a TestStruct, the model of serde_json::to_string. -/
def TestStruct.toJsonString (t : TestStruct) : Except Str Str :=
  (TestStruct.toJson t).map Json.render

/-- Expected wire fields contributed by one tri-state field. -/
def fieldJson (name : Str) : UndefinedOr Nat → List (Str × Json)
  | .undefined => []
  | .null => [(name, Json.null)]
  | .value v => [(name, Json.num v)]

/-- Http methods used by the route table. -/
inductive Method where
  | GET
  | POST
  | PUT
  | DELETE
  deriving DecidableEq

/-- A static route of routes.rs: an http method and a uri template. -/
structure Route where
  method : Method
  uri : Str

/-- A compiled route of routes.rs: the mutable uri, the method, and the
accumulated query parameters. -/
structure CompiledRoute where
  uri : Str
  method : Method
  params : List (Str × Str)
  deriving DecidableEq

/-- Route::compile: a fresh compiled route with the unmodified template and no
query parameters. -/
def Route.compile (r : Route) : CompiledRoute :=
  ⟨r.uri, r.method, []⟩

/-- The positional placeholder token of the uri templates. -/
def placeholder : Str := chars "\x7b\x7d"

/-- CompiledRoute::uri_insert: replace the first occurrence of the placeholder
token in the uri with the given value. -/
def CompiledRoute.uri_insert (c : CompiledRoute) (param : Str) : CompiledRoute :=
  { c with uri := strReplace1 placeholder param c.uri }

/-- CompiledRoute::query_insert: append a (name, value) query pair. -/
def CompiledRoute.query_insert (c : CompiledRoute) (name value : Str) : CompiledRoute :=
  { c with params := c.params ++ [(name, value)] }

/-- Wire form of one query pair, name=value. -/
def pairStr (p : Str × Str) : Str := p.1 ++ '=' :: p.2

/-- Joining with ampersands, the model of Vec::join on strings. -/
def joinAmp : List Str → Str
  | [] => []
  | [s] => s
  | s :: rest => s ++ '&' :: joinAmp rest

/-- CompiledRoute::build_query: the pairs joined as name=value with
ampersands, with a leading question mark inserted when the joined string is
nonempty. -/
def CompiledRoute.build_query (c : CompiledRoute) : Str :=
  let query := joinAmp (c.params.map pairStr)
  if query = [] then query else '?' :: query

/-- The create key endpoint of the route table. -/
def CREATE_KEY : Route := ⟨.POST, chars "/keys"⟩

/-- The verify key endpoint of the route table. -/
def VERIFY_KEY : Route := ⟨.POST, chars "/keys/verify"⟩

/-- The delete key endpoint of the route table. -/
def DELETE_KEY : Route := ⟨.DELETE, chars "/keys/\x7b\x7d"⟩

/-- The update key endpoint of the route table. -/
def UPDATE_KEY : Route := ⟨.PUT, chars "/keys/\x7b\x7d"⟩

/-- The get api endpoint of the route table. -/
def GET_API : Route := ⟨.GET, chars "/apis/\x7b\x7d"⟩

/-- The list keys endpoint of the route table. -/
def LIST_KEYS : Route := ⟨.GET, chars "/apis/\x7b\x7d/keys"⟩

/-- The ListKeysRequest record of models/apis.rs. -/
structure ListKeysRequest where
  api_id : Str
  owner_id : Option Str
  limit : Option Nat
  cursor : Option Str
  revalidate_cache : Option Bool

/-- Decimal rendering of an unsigned integer, usize::to_string. -/
def natToStr (n : Nat) : Str := chars (Nat.repr n)

/-- Rendering of a boolean, bool::to_string. -/
def boolToStr : Bool → Str
  | true => chars "true"
  | false => chars "false"

/-- The route construction inside ApiService::list_keys of services/apis.rs:
compile the list keys route, insert the apiId and limit query parameters (the
limit defaulting to 100), then conditionally the revalidateKeysCache, ownerId
and cursor parameters.  The transport call and response decoding that follow
are the external collaborator boundary. -/
def ApiService.list_keys_route (req : ListKeysRequest) : CompiledRoute :=
  let route := LIST_KEYS.compile
  let route := route.query_insert (chars "apiId") req.api_id
  let route := route.query_insert (chars "limit") (natToStr (req.limit.getD 100))
  let route := match req.revalidate_cache with
    | some revalidate => route.query_insert (chars "revalidateKeysCache") (boolToStr revalidate)
    | none => route
  let route := match req.owner_id with
    | some owner => route.query_insert (chars "ownerId") owner
    | none => route
  let route := match req.cursor with
    | some cursor => route.query_insert (chars "cursor") cursor
    | none => route
  route

/-- Validity of one character inside an http header value, per
HeaderValue::from_str: a horizontal tab, or any character other than the
control range and delete. -/
def validHeaderChar (c : Char) : Bool :=
  decide (c = '\t' ∨ (32 ≤ c.toNat ∧ c.toNat ≠ 127))

/-- Validity of a whole header value string. -/
def validHeaderValue (s : Str) : Bool := s.all validHeaderChar

/-- HeaderValue::from_str: the value itself when every character is valid,
an error otherwise. -/
def headerValueFromStr (s : Str) : Except Str Str :=
  if validHeaderValue s then .ok s else .error (chars "failed to parse header value")

/-- HeaderMap::insert: replace the value bound to an existing name, append
the pair otherwise. -/
def headerInsert (headers : List (Str × Str)) (name value : Str) : List (Str × Str) :=
  if headers.any (fun p => p.1 == name) then
    headers.map (fun p => if p.1 == name then (name, value) else p)
  else headers ++ [(name, value)]

/-- First value bound to a header name. -/
def assocLookup : List (Str × Str) → Str → Option Str
  | [], _ => none
  | (k, v) :: rest, key => if k = key then some v else assocLookup rest key

/-- Outcome of a computation that may terminate the process, the model of
std::process::exit. -/
inductive ProcessResult (α : Type) where
  | exit (code : Nat)
  | ok (a : α)
  deriving DecidableEq

/-- The insertion loop of HttpService::generate_headers: insert each header
whose value parsed, terminate the process with exit code 1 at the first
value that did not. -/
def insertHeaders : List (Str × Except Str Str) → List (Str × Str) → ProcessResult (List (Str × Str))
  | [], headers => .ok headers
  | (name, .ok value) :: rest, headers => insertHeaders rest (headerInsert headers name value)
  | (_, .error _) :: _, _ => .exit 1

/-- The client-identifying user agent string; the version is the build-time
CARGO_PKG_VERSION constant, an external input to the repository sources. -/
def USER_AGENT_FOR (version : Str) : Str := chars "Unkey Rust SDK v" ++ version

/-- HttpService::generate_headers of services/http.rs: the Accept,
x-user-agent and Bearer-prefixed Authorization headers, with process exit 1
at the first header value that fails to parse. -/
def HttpService.generate_headers (version key : Str) : ProcessResult (List (Str × Str)) :=
  insertHeaders
    [(chars "Accept", headerValueFromStr (chars "application/json")),
     (chars "x-user-agent", headerValueFromStr (USER_AGENT_FOR version)),
     (chars "Authorization", headerValueFromStr (chars "Bearer " ++ key))]
    []

/-- The http service state: base url and request headers.  The reqwest client
handle is the external transport collaborator and carries no modelled state. -/
structure HttpService where
  url : Str
  headers : List (Str × Str)
  deriving DecidableEq

/-- The production base url of services/http.rs. -/
def BASE_API_URL : Str := chars "https://api.unkey.dev/v1"

/-- HttpService::new: generated headers and the production base url. -/
def HttpService.new (version key : Str) : ProcessResult HttpService :=
  match HttpService.generate_headers version key with
  | .exit code => .exit code
  | .ok headers => .ok ⟨BASE_API_URL, headers⟩

/-- HttpService::with_url: generated headers and a caller-supplied base url. -/
def HttpService.with_url (version key url : Str) : ProcessResult HttpService :=
  match HttpService.generate_headers version key with
  | .exit code => .exit code
  | .ok headers => .ok ⟨url, headers⟩

/-- HttpService::set_key of services/http.rs: parse the supplied key as a
header value and, on success, insert it as the Authorization header; on
failure only log, leaving the headers unchanged. -/
def HttpService.set_key (s : HttpService) (key : Str) : HttpService :=
  match headerValueFromStr key with
  | .error _ => s
  | .ok h => { s with headers := headerInsert s.headers (chars "Authorization") h }

/-- Claim C1: for a body text on which the unit envelope decode fails,
parse_empty_response returns success when the text does not contain the error
discriminator substring and an Unknown-coded error carrying the parse error
text when it does; when the envelope decode succeeds the decoded success or
decoded error is returned. -/
theorem parse_empty_response_cases (parse : Str → Except Str Json) (text : Str) :
    (∀ e, (parse text).bind (wrappedFromJson unitFromJson) = .error e →
      (strContains text (chars "error") = false →
        parse_empty_response parse (.ok text) = .ok ())
      ∧ (strContains text (chars "error") = true →
        parse_empty_response parse (.ok text) = .error ⟨.Unknown, e⟩))
    ∧ (∀ r, (parse text).bind (wrappedFromJson unitFromJson) = .ok r →
      parse_empty_response parse (.ok text) = r.toResult) := by
  constructor
  · intro e he
    constructor <;> intro hc <;> simp [parse_empty_response, he, hc]
  · intro r hr
    simp [parse_empty_response, hr]

/-- Witness for claim C1 at a concrete input: an empty body that the unit
envelope decoder rejects is treated as success. -/
theorem parse_empty_response_cases_witness :
    parse_empty_response (fun _ => .error (chars "EOF while parsing")) (.ok []) = .ok () := by
  have h := (parse_empty_response_cases (fun _ => .error (chars "EOF while parsing")) []).1
    (chars "EOF while parsing") rfl
  exact h.1 rfl

/-- Claim C2: a body text matching the tagged error shape decodes through the
envelope to the error variant for every payload deserializer, so the tagged
error shape takes priority and the payload shape is never required. -/
theorem wrapped_decode_error_priority {T : Type} (tDe : Json → Except Str T)
    (parse : Str → Except Str Json) (text code msg : Str)
    (hparse : parse text = .ok (errorJson code msg)) :
    wrappedFromJson tDe (errorJson code msg) = .ok (.err ⟨errorCodeFromStr code, msg⟩)
    ∧ parse_response parse tDe (.ok text) = .error ⟨errorCodeFromStr code, msg⟩ := by
  have h1 : wrappedFromJson tDe (errorJson code msg)
      = .ok (.err ⟨errorCodeFromStr code, msg⟩) := rfl
  refine ⟨h1, ?_⟩
  simp [parse_response, hparse, Except.bind, h1, Wrapped.toResult]

/-- Witness for claim C2 at a concrete input: a NOT_FOUND error body decodes
to the error variant even under a deserializer that rejects every value. -/
theorem wrapped_decode_error_priority_witness :
    wrappedFromJson (fun _ => (.error (chars "nope") : Except Str Unit))
      (errorJson (chars "NOT_FOUND") (chars "key not found"))
      = .ok (.err ⟨.NotFound, chars "key not found"⟩)
    ∧ parse_response
        (fun _ => .ok (errorJson (chars "NOT_FOUND") (chars "key not found")))
        (fun _ => (.error (chars "nope") : Except Str Unit)) (.ok [])
      = .error ⟨.NotFound, chars "key not found"⟩ := by
  have h := wrapped_decode_error_priority
    (fun _ => (.error (chars "nope") : Except Str Unit))
    (fun _ => .ok (errorJson (chars "NOT_FOUND") (chars "key not found")))
    [] (chars "NOT_FOUND") (chars "key not found") rfl
  exact h

/-- Claim C3: directly serializing an UndefinedOr value yields the JSON null
token in the null state, the inner serialization in the value state, and a
serialization error in the undefined state; whenever the inner serializer
always succeeds, serialization fails exactly on the undefined state. -/
theorem undefined_or_serialize_spec {T : Type} (ser : T → Except Str Json) (u : UndefinedOr T) :
    UndefinedOr.serialize ser (.null : UndefinedOr T) = .ok .null
    ∧ (∀ v, UndefinedOr.serialize ser (.value v) = ser v)
    ∧ UndefinedOr.serialize ser (.undefined : UndefinedOr T)
        = .error (chars "Undefined should never be serialized.")
    ∧ ((∀ v, (ser v).isOk = true) →
        (((UndefinedOr.serialize ser u).isOk = false) ↔ u = .undefined)) := by
  refine ⟨rfl, fun v => rfl, rfl, fun hser => ?_⟩
  cases u with
  | null => simp [UndefinedOr.serialize, Except.isOk, Except.toBool]
  | undefined => simp [UndefinedOr.serialize, Except.isOk, Except.toBool]
  | value v => simp [UndefinedOr.serialize, hser v]

/-- Witness for claim C3 at a concrete input: with the total u32 serializer,
serialization of the undefined state fails. -/
theorem undefined_or_serialize_spec_witness :
    ((UndefinedOr.serialize natToJson (.undefined : UndefinedOr Nat)).isOk = false)
      ↔ (.undefined : UndefinedOr Nat) = .undefined := by
  exact (undefined_or_serialize_spec natToJson (.undefined : UndefinedOr Nat)).2.2.2
    (fun v => rfl)

/-- Claim C8: converting an ordinary Option into UndefinedOr yields value
exactly on some, null exactly on none, and never undefined. -/
theorem undefined_or_from_option_spec {T : Type} (o : Option T) :
    (∀ v, UndefinedOr.fromOption o = .value v ↔ o = some v)
    ∧ (UndefinedOr.fromOption o = .null ↔ o = none)
    ∧ UndefinedOr.fromOption o ≠ .undefined := by
  cases o <;> simp [UndefinedOr.fromOption]

/-- Claim C4: container serialization under the skip-if-undefined rule omits
undefined fields entirely, emits the null token for null fields and the inner
value for value fields; the mixed concrete container renders to exactly the
expected wire text. -/
theorem tri_state_container_serialization (a b c d : UndefinedOr Nat) :
    TestStruct.toJson ⟨a, b, c, d⟩
      = .ok (Json.obj (fieldJson (chars "a") a ++ fieldJson (chars "b") b
          ++ fieldJson (chars "c") c ++ fieldJson (chars "d") d))
    ∧ TestStruct.toJsonString ⟨.value 69, .value 420, .null, .undefined⟩
      = .ok (chars "\x7b\"a\":69,\"b\":420,\"c\":null\x7d") := by
  constructor
  · cases a <;> cases b <;> cases c <;> cases d <;> rfl
  · rfl

/-- The placeholder token written out. -/
theorem placeholder_eq : placeholder = ['\x7b', '\x7d'] := rfl

/-- Replacing a pattern that does not occur is the identity. -/
theorem strReplace1_no_occurrence (pat rep s : Str) (h : strContains s pat = false) :
    strReplace1 pat rep s = s := by
  induction s with
  | nil =>
    simp only [strContains] at h
    simp [strReplace1, h]
  | cons c rest ih =>
    simp only [strContains, Bool.or_eq_false_iff] at h
    simp [strReplace1, h.1, ih h.2]

/-- Replacing the placeholder in a string that splits around its leftmost
placeholder occurrence substitutes exactly there. -/
theorem strReplace1_placeholder_split (rep pre suf : Str)
    (h : strContains pre placeholder = false) :
    strReplace1 placeholder rep (pre ++ (placeholder ++ suf)) = pre ++ (rep ++ suf) := by
  induction pre with
  | nil =>
    simp only [List.nil_append]
    simp [placeholder_eq, strReplace1, strStartsWith]
  | cons c rest ih =>
    have h' : strStartsWith (c :: rest) placeholder = false
        ∧ strContains rest placeholder = false := by
      simpa only [strContains, Bool.or_eq_false_iff] using h
    have hns : strStartsWith (c :: (rest ++ (placeholder ++ suf))) placeholder = false := by
      cases rest with
      | nil =>
        have hbe : ('\x7b' == ('\x7d' : Char)) = false := by decide
        simp [placeholder_eq, strStartsWith, hbe]
      | cons d rest2 =>
        have hcd := h'.1
        simp only [placeholder_eq, strStartsWith, List.cons_append, Bool.and_true] at hcd ⊢
        exact hcd
    simp only [List.cons_append]
    simp only [strReplace1, hns, Bool.false_eq_true, if_false]
    rw [ih h'.2]

/-- Claim C6: uri_insert replaces the first (leftmost) placeholder occurrence
with the given value, and is a silent no-op once the uri holds no placeholder,
so excess insertions never change the route. -/
theorem uri_insert_spec (c : CompiledRoute) (param : Str) :
    (strContains c.uri placeholder = false → c.uri_insert param = c)
    ∧ (∀ pre suf, c.uri = pre ++ (placeholder ++ suf) →
        strContains pre placeholder = false →
        c.uri_insert param = { c with uri := pre ++ (param ++ suf) }) := by
  constructor
  · intro h
    simp [CompiledRoute.uri_insert, strReplace1_no_occurrence _ _ _ h]
  · intro pre suf hu h
    have hs := strReplace1_placeholder_split param pre suf h
    simp [CompiledRoute.uri_insert, hu, hs]

/-- Witness for claim C6 at concrete inputs: inserting into the list keys
template substitutes the placeholder, and inserting into a template without a
placeholder changes nothing. -/
theorem uri_insert_spec_witness :
    (Route.compile ⟨Method.GET, chars "/apis/\x7b\x7d/keys"⟩).uri_insert (chars "5")
      = ⟨chars "/apis/5/keys", Method.GET, []⟩
    ∧ (Route.compile ⟨Method.GET, chars "/keys/verify"⟩).uri_insert (chars "5")
      = Route.compile ⟨Method.GET, chars "/keys/verify"⟩ := by
  constructor
  · exact (uri_insert_spec (Route.compile ⟨Method.GET, chars "/apis/\x7b\x7d/keys"⟩)
      (chars "5")).2 (chars "/apis/") (chars "/keys") (by decide) (by decide)
  · exact (uri_insert_spec (Route.compile ⟨Method.GET, chars "/keys/verify"⟩)
      (chars "5")).1 (by decide)

/-- The ampersand join of a nonempty pair list is nonempty. -/
theorem joinAmp_pairs_ne_nil (ps : List (Str × Str)) (h : ps ≠ []) :
    joinAmp (ps.map pairStr) ≠ [] := by
  match ps with
  | [] => exact absurd rfl h
  | [p] => simp [joinAmp, pairStr]
  | p :: q :: rest => simp [joinAmp, pairStr]

/-- Claim C7: query_insert appends pairs without deduplication in insertion
order, and build_query joins them as name=value with ampersands behind one
question mark exactly when at least one pair exists, yielding the empty
string (never a bare question mark) on zero pairs. -/
theorem build_query_spec (c : CompiledRoute) :
    (∀ name value, (c.query_insert name value).params = c.params ++ [(name, value)])
    ∧ (c.params = [] → c.build_query = [])
    ∧ (c.params ≠ [] → c.build_query = '?' :: joinAmp (c.params.map pairStr))
    ∧ (c.build_query = [] ↔ c.params = []) := by
  refine ⟨fun name value => rfl, ?_, ?_, ?_⟩
  · intro h
    simp [CompiledRoute.build_query, h, joinAmp]
  · intro h
    have hne := joinAmp_pairs_ne_nil c.params h
    simp [CompiledRoute.build_query, hne]
  · constructor
    · intro hb
      by_contra hne
      have hj := joinAmp_pairs_ne_nil c.params hne
      simp [CompiledRoute.build_query, hj] at hb
    · intro h
      simp [CompiledRoute.build_query, h, joinAmp]

/-- Witness for claim C7 at concrete inputs: two insertions produce the
expected query string in insertion order, repeated keys are preserved, and an
empty parameter list yields the empty string. -/
theorem build_query_spec_witness :
    ((Route.compile ⟨Method.GET, chars "/apis/milk"⟩).query_insert (chars "test")
        (chars "value") |>.query_insert (chars "js") (chars "bad")).build_query
      = chars "?test=value&js=bad"
    ∧ ((Route.compile ⟨Method.GET, chars "/apis/milk"⟩).query_insert (chars "a")
        (chars "1") |>.query_insert (chars "a") (chars "2")).build_query
      = chars "?a=1&a=2"
    ∧ (Route.compile ⟨Method.GET, chars "/apis/milk"⟩).build_query = [] := by
  refine ⟨?_, ?_, ?_⟩
  · exact (build_query_spec ((Route.compile ⟨Method.GET, chars "/apis/milk"⟩).query_insert
      (chars "test") (chars "value") |>.query_insert (chars "js") (chars "bad"))).2.2.1
      (by decide)
  · exact (build_query_spec ((Route.compile ⟨Method.GET, chars "/apis/milk"⟩).query_insert
      (chars "a") (chars "1") |>.query_insert (chars "a") (chars "2"))).2.2.1 (by decide)
  · exact (build_query_spec (Route.compile ⟨Method.GET, chars "/apis/milk"⟩)).2.1 rfl

/-- Claim C9: the list keys operation compiles the GET /apis/\x7b\x7d/keys
route and sets the apiId query parameter, then limit (defaulting to 100 when
absent), then conditionally revalidateKeysCache, ownerId and cursor, the
optional parameters appearing exactly when present on the request. -/
theorem list_keys_route_spec (req : ListKeysRequest) :
    (ApiService.list_keys_route req).method = Method.GET
    ∧ (ApiService.list_keys_route req).uri = LIST_KEYS.uri
    ∧ (ApiService.list_keys_route req).params
        = [(chars "apiId", req.api_id), (chars "limit", natToStr (req.limit.getD 100))]
          ++ (match req.revalidate_cache with
              | some revalidate => [(chars "revalidateKeysCache", boolToStr revalidate)]
              | none => [])
          ++ (match req.owner_id with
              | some owner => [(chars "ownerId", owner)]
              | none => [])
          ++ (match req.cursor with
              | some cursor => [(chars "cursor", cursor)]
              | none => []) := by
  obtain ⟨a, o, l, cu, rv⟩ := req
  cases rv <;> cases o <;> cases cu <;> exact ⟨rfl, rfl, rfl⟩

/-- Claim C10: a root key whose Bearer header value contains an invalid byte
(a newline) makes http service construction terminate the process with exit
code 1 rather than return an error, while every key forming a valid header
value yields exactly the Accept, x-user-agent and Authorization headers. -/
theorem generate_headers_spec (version : Str)
    (hua : validHeaderValue (USER_AGENT_FOR version) = true) :
    HttpService.generate_headers version (chars "bad\nkey") = .exit 1
    ∧ (∀ key, validHeaderValue key = true →
        HttpService.generate_headers version key
          = .ok [(chars "Accept", chars "application/json"),
                 (chars "x-user-agent", USER_AGENT_FOR version),
                 (chars "Authorization", chars "Bearer " ++ key)]) := by
  have hacc : validHeaderValue (chars "application/json") = true := by decide
  have hb : (chars "Bearer ").all validHeaderChar = true := by decide
  have e1 : (chars "Accept" == chars "x-user-agent") = false := by decide
  have e2 : (chars "Accept" == chars "Authorization") = false := by decide
  have e3 : (chars "x-user-agent" == chars "Authorization") = false := by decide
  constructor
  · have hbad : validHeaderValue (chars "Bearer " ++ chars "bad\nkey") = false := by decide
    simp [HttpService.generate_headers, headerValueFromStr, hacc, hua, hbad,
      insertHeaders, headerInsert, e1]
  · intro key hkey
    have hauth : validHeaderValue (chars "Bearer " ++ key) = true := by
      have hk := hkey
      simp only [validHeaderValue] at hk ⊢
      rw [List.all_append, hb, hk]
      rfl
    simp [HttpService.generate_headers, headerValueFromStr, hacc, hua, hauth,
      insertHeaders, headerInsert, e1, e2, e3]

/-- Witness for claim C10 at concrete inputs: with a concrete package
version, the newline-carrying key exits with code 1 and a plain key yields
the three headers. -/
theorem generate_headers_spec_witness :
    HttpService.generate_headers (chars "0.1.0") (chars "bad\nkey") = .exit 1
    ∧ HttpService.generate_headers (chars "0.1.0") (chars "unkey_root")
      = .ok [(chars "Accept", chars "application/json"),
             (chars "x-user-agent", USER_AGENT_FOR (chars "0.1.0")),
             (chars "Authorization", chars "Bearer " ++ chars "unkey_root")] := by
  have h := generate_headers_spec (chars "0.1.0") (by decide)
  exact ⟨h.1, h.2 (chars "unkey_root") (by decide)⟩

/-- Claim C5 evidence: construction Bearer-prefixes the Authorization header,
but set_key stores the raw key without the Bearer prefix, so the
Bearer-prefixed Authorization format is not an invariant preserved by
set_key. -/
theorem set_key_drops_bearer :
    (match HttpService.new (chars "0.1.0") (chars "k1") with
     | .ok s => assocLookup s.headers (chars "Authorization")
     | .exit _ => none) = some (chars "Bearer k1")
    ∧ (match HttpService.new (chars "0.1.0") (chars "k1") with
       | .ok s => assocLookup ((s.set_key (chars "k2")).headers) (chars "Authorization")
       | .exit _ => none) = some (chars "k2")
    ∧ chars "k2" ≠ chars "Bearer k2" := by
  exact ⟨by decide, by decide, by decide⟩

end Unkey
